import Mathlib

/-!
Verification of the triangle-inequality checker in `src/Python/teste.py`.

The program reads three segment lengths, decides triangle feasibility via
`verificar_triangulo`, reconstructs the apex of a feasible triangle via
`calcular_vertice` (law of cosines), and otherwise prints a report naming
the violated inequality.  Side lengths are modelled as real numbers; the
order/branching logic of the driver and report is embedded as computable
functions over a linearly ordered field so each branch of the Python code
has a direct counterpart.
-/

namespace Teste

/-- Embedding of `verificar_triangulo(a, b, c)` (teste.py line 17):
`return (a + b > c) and (a + c > b) and (b + c > a)`. -/
def verificar_triangulo {α : Type} [LinearOrderedField α] (a b c : α) : Prop :=
  (a + b > c) ∧ (a + c > b) ∧ (b + c > a)

/-- The argument handed to `np.arccos` inside `calcular_vertice`
(teste.py line 30): `(a**2 + c**2 - b**2) / (2 * a * c)`. -/
noncomputable def arccos_arg (a b c : ℝ) : ℝ :=
  (a ^ 2 + c ^ 2 - b ^ 2) / (2 * a * c)

/-- Embedding of `calcular_vertice(a, b, c)` (teste.py lines 30-31):
`angulo = np.arccos((a**2 + c**2 - b**2) / (2 * a * c))`;
`return a * np.cos(angulo), a * np.sin(angulo)`. -/
noncomputable def calcular_vertice (a b c : ℝ) : ℝ × ℝ :=
  let angulo := Real.arccos (arccos_arg a b c)
  (a * Real.cos angulo, a * Real.sin angulo)

/-- Euclidean distance between two points of the plane, used to state that
the computed apex realizes the requested side lengths. -/
noncomputable def distancia (p q : ℝ × ℝ) : ℝ :=
  Real.sqrt ((q.1 - p.1) ^ 2 + (q.2 - p.2) ^ 2)

/-- The three side labels `'a'`, `'b'`, `'c'` used by the report in `main`. -/
inductive Lado : Type
  | a : Lado
  | b : Lado
  | c : Lado
deriving DecidableEq, Repr

/-- The side length carried by a label, relative to inputs `(a, b, c)`. -/
def valor_lado {α : Type} (a b c : α) : Lado → α
  | Lado.a => a
  | Lado.b => b
  | Lado.c => c

/-- A single compare-exchange, the building block used to model Python's
`sorted` on a three-element list. -/
def sort2 {α : Type} [LinearOrder α] (x y : α) : α × α :=
  if x ≤ y then (x, y) else (y, x)

/-- Embedding of `sorted([a, b, c])` (teste.py lines 68 and 156) as a
three-element sorting network: the result lists the three values in
nondecreasing order. -/
def sort3 {α : Type} [LinearOrder α] (a b c : α) : α × α × α :=
  let p := sort2 a b
  let q := sort2 p.2 c
  let r := sort2 p.1 q.1
  (r.1, r.2, q.2)

/-- The data printed by the infeasible-case report of `main`
(teste.py lines 155-174): the sum of the two smallest sides, the largest
side, the label chosen for the largest side and the two labels used in the
violated-condition line. -/
structure RelatorioFinal (α : Type) : Type where
  soma_menores : α
  maior : α
  label_maior : Lado
  menores : Lado × Lado

/-- Embedding of the report computation of `main` (teste.py lines 155-174):
`lados_ordenados = sorted([a, b, c])`, `soma_menores`, `maior`, then the
label selection by value-equality tests `a == maior`, `b == maior`, and the
inner tests against `lados_ordenados[0]`. -/
def relatorio_final {α : Type} [LinearOrderedField α] (a b c : α) :
    RelatorioFinal α :=
  let s := sort3 a b c
  let soma_menores := s.1 + s.2.1
  let maior := s.2.2
  if a = maior then
    ⟨soma_menores, maior, Lado.a,
      if b = s.1 then (Lado.b, Lado.c) else (Lado.c, Lado.b)⟩
  else if b = maior then
    ⟨soma_menores, maior, Lado.b,
      if a = s.1 then (Lado.a, Lado.c) else (Lado.c, Lado.a)⟩
  else
    ⟨soma_menores, maior, Lado.c,
      if a = s.1 then (Lado.a, Lado.b) else (Lado.b, Lado.a)⟩

/-- Outcome of one run of `main`: the `except ValueError` branch, the
non-positive-length branch, or a full run that renders and reports with the
three parsed values. -/
inductive MainOutcome (α : Type) : Type
  | erroEntrada : MainOutcome α
  | erroNaoPositivo : MainOutcome α
  | renderizado : α → α → α → MainOutcome α
deriving DecidableEq, Repr

/-- Embedding of the control flow of `main` (teste.py lines 122-150): each
of the three `float(input())` reads either yields a value (`some`) or
raises `ValueError` (`none`); a failed parse ends the run with the
input-error message, a non-positive value ends it with the positivity
error, and otherwise the run proceeds to rendering and the report. -/
def main_model {α : Type} [LinearOrderedField α] (ra rb rc : Option α) :
    MainOutcome α :=
  match ra, rb, rc with
  | some a, some b, some c =>
      if a ≤ 0 ∨ b ≤ 0 ∨ c ≤ 0 then MainOutcome.erroNaoPositivo
      else MainOutcome.renderizado a b c
  | _, _, _ => MainOutcome.erroEntrada

/-- Exactly one of the three inequalities checked by
`verificar_triangulo` is violated: one fails while the other two hold. -/
def exatamente_uma_violada (a b c : ℝ) : Prop :=
  (¬(a + b > c) ∧ (a + c > b) ∧ (b + c > a)) ∨
  ((a + b > c) ∧ ¬(a + c > b) ∧ (b + c > a)) ∨
  ((a + b > c) ∧ (a + c > b) ∧ ¬(b + c > a))

/-- The violated inequality is the one isolating the largest side, and
that side strictly exceeds the sum of the other two (the claimed strict
form). -/
def maior_excede_estritamente (a b c : ℝ) : Prop :=
  (¬(a + b > c) → c = max a (max b c) ∧ c > a + b) ∧
  (¬(a + c > b) → b = max a (max b c) ∧ b > a + c) ∧
  (¬(b + c > a) → a = max a (max b c) ∧ a > b + c)

/-! ### Helper lemmas shared by the claim theorems -/

/-- The three strict inequalities force all three lengths positive. -/
lemma pos_of_verificar {a b c : ℝ} (h : verificar_triangulo a b c) :
    0 < a ∧ 0 < b ∧ 0 < c := by
  obtain ⟨h1, h2, h3⟩ := h
  refine ⟨by linarith, by linarith, by linarith⟩

/-- Under the strict triangle inequality the arccosine argument is
strictly below `1`. -/
lemma arccos_arg_lt_one {a b c : ℝ} (h : verificar_triangulo a b c) :
    arccos_arg a b c < 1 := by
  obtain ⟨ha, hb, hc⟩ := pos_of_verificar h
  obtain ⟨h1, h2, h3⟩ := h
  have hden : (0 : ℝ) < 2 * a * c := by positivity
  rw [arccos_arg, div_lt_one hden]
  nlinarith [mul_pos (show (0 : ℝ) < b - (a - c) by linarith)
    (show (0 : ℝ) < b + (a - c) by linarith)]

/-- Under the strict triangle inequality the arccosine argument is
strictly above `-1`. -/
lemma neg_one_lt_arccos_arg {a b c : ℝ} (h : verificar_triangulo a b c) :
    -1 < arccos_arg a b c := by
  obtain ⟨ha, hb, hc⟩ := pos_of_verificar h
  obtain ⟨h1, h2, h3⟩ := h
  have hden : (0 : ℝ) < 2 * a * c := by positivity
  rw [arccos_arg, lt_div_iff hden]
  nlinarith [mul_pos (show (0 : ℝ) < a + c - b by linarith)
    (show (0 : ℝ) < a + c + b by linarith)]

/-- The apex coordinates, written out through `cos_arccos` and
`sin_arccos`: with `g` the arccosine argument, the apex is
`(a * g, a * Real.sqrt (1 - g ^ 2))`. -/
lemma calcular_vertice_eq {a b c : ℝ} (h : verificar_triangulo a b c) :
    calcular_vertice a b c =
      (a * arccos_arg a b c,
       a * Real.sqrt (1 - arccos_arg a b c ^ 2)) := by
  have h1 : -1 ≤ arccos_arg a b c := (neg_one_lt_arccos_arg h).le
  have h2 : arccos_arg a b c ≤ 1 := (arccos_arg_lt_one h).le
  simp only [calcular_vertice, Real.cos_arccos h1 h2, Real.sin_arccos]

/-! ### Claim theorems -/

/-- C1: for all real `a b c`, `verificar_triangulo a b c` holds iff all
three strict inequalities `a+b>c`, `a+c>b`, `b+c>a` hold; in particular
the degenerate triple `(1, 2, 3)` is rejected. -/
theorem C1_verificar_iff :
    (∀ a b c : ℝ,
      verificar_triangulo a b c ↔ (a + b > c) ∧ (a + c > b) ∧ (b + c > a)) ∧
    ¬ verificar_triangulo (1 : ℝ) 2 3 := by
  constructor
  · intro a b c
    exact Iff.rfl
  · rintro ⟨h1, -, -⟩
    norm_num at h1

/-- C2: on every triple satisfying the triangle predicate,
`calcular_vertice a b c` is the point `(a * cos t, a * sin t)` with
`t = arccos ((a^2 + c^2 - b^2) / (2*a*c))`. -/
theorem C2_calcular_vertice_formula (a b c : ℝ)
    (h : verificar_triangulo a b c) :
    calcular_vertice a b c =
      (a * Real.cos (Real.arccos ((a ^ 2 + c ^ 2 - b ^ 2) / (2 * a * c))),
       a * Real.sin (Real.arccos ((a ^ 2 + c ^ 2 - b ^ 2) / (2 * a * c)))) :=
  rfl

/-- Witness for C2 at the right triangle `(3, 4, 5)`. -/
theorem C2_witness :
    verificar_triangulo (3 : ℝ) 4 5 ∧
    calcular_vertice (3 : ℝ) 4 5 =
      (3 * Real.cos (Real.arccos ((3 ^ 2 + 5 ^ 2 - 4 ^ 2) / (2 * 3 * 5))),
       3 * Real.sin (Real.arccos ((3 ^ 2 + 5 ^ 2 - 4 ^ 2) / (2 * 3 * 5)))) := by
  have hv : verificar_triangulo (3 : ℝ) 4 5 := by
    refine ⟨by norm_num, by norm_num, by norm_num⟩
  exact ⟨hv, C2_calcular_vertice_formula 3 4 5 hv⟩

/-- C8: for positive lengths, `verificar_triangulo` is invariant under the
permutations `(b, a, c)` and `(c, b, a)` of its arguments. -/
theorem C8_verificar_symm (a b c : ℝ)
    (ha : 0 < a) (hb : 0 < b) (hc : 0 < c) :
    (verificar_triangulo a b c ↔ verificar_triangulo b a c) ∧
    (verificar_triangulo a b c ↔ verificar_triangulo c b a) := by
  constructor
  · constructor
    · rintro ⟨h1, h2, h3⟩
      exact ⟨by linarith, by linarith, by linarith⟩
    · rintro ⟨h1, h2, h3⟩
      exact ⟨by linarith, by linarith, by linarith⟩
  · constructor
    · rintro ⟨h1, h2, h3⟩
      exact ⟨by linarith, by linarith, by linarith⟩
    · rintro ⟨h1, h2, h3⟩
      exact ⟨by linarith, by linarith, by linarith⟩

/-- Witness for C8 at `(3, 4, 5)`. -/
theorem C8_witness :
    (0 : ℝ) < 3 ∧ (0 : ℝ) < 4 ∧ (0 : ℝ) < 5 ∧
    ((verificar_triangulo (3 : ℝ) 4 5 ↔ verificar_triangulo (4 : ℝ) 3 5) ∧
     (verificar_triangulo (3 : ℝ) 4 5 ↔ verificar_triangulo (5 : ℝ) 4 3)) :=
  ⟨by norm_num, by norm_num, by norm_num,
    C8_verificar_symm 3 4 5 (by norm_num) (by norm_num) (by norm_num)⟩

/-- C9: the three strict inequalities alone already force `a`, `b`, `c`
positive, with no positivity guard assumed. -/
theorem C9_verificar_pos (a b c : ℝ) (h : verificar_triangulo a b c) :
    0 < a ∧ 0 < b ∧ 0 < c :=
  pos_of_verificar h

/-- Witness for C9 at `(3, 4, 5)`. -/
theorem C9_witness :
    verificar_triangulo (3 : ℝ) 4 5 ∧ (0 : ℝ) < 3 ∧ (0 : ℝ) < 4 ∧ (0 : ℝ) < 5 := by
  have hv : verificar_triangulo (3 : ℝ) 4 5 := by
    refine ⟨by norm_num, by norm_num, by norm_num⟩
  exact ⟨hv, C9_verificar_pos 3 4 5 hv⟩

/-- C3: for positive lengths satisfying the strict triangle inequality, the
arccosine argument of `calcular_vertice` lies in `[-1, 1]`, so arccos is
applied inside its domain. -/
theorem C3_arccos_arg_in_domain (a b c : ℝ)
    (ha : 0 < a) (hb : 0 < b) (hc : 0 < c)
    (h : verificar_triangulo a b c) :
    -1 ≤ arccos_arg a b c ∧ arccos_arg a b c ≤ 1 :=
  ⟨(neg_one_lt_arccos_arg h).le, (arccos_arg_lt_one h).le⟩

/-- Witness for C3 at `(3, 4, 5)`. -/
theorem C3_witness :
    (0 : ℝ) < 3 ∧ (0 : ℝ) < 4 ∧ (0 : ℝ) < 5 ∧ verificar_triangulo (3 : ℝ) 4 5 ∧
    (-1 ≤ arccos_arg 3 4 5 ∧ arccos_arg 3 4 5 ≤ 1) := by
  have hv : verificar_triangulo (3 : ℝ) 4 5 := by
    refine ⟨by norm_num, by norm_num, by norm_num⟩
  exact ⟨by norm_num, by norm_num, by norm_num, hv,
    C3_arccos_arg_in_domain 3 4 5 (by norm_num) (by norm_num) (by norm_num) hv⟩

/-- C4: for a feasible triple, the computed apex is at distance `a` from
the origin, at distance `b` from `(c, 0)`, and lies on or above the base. -/
theorem C4_vertice_realiza_lados (a b c : ℝ)
    (h : verificar_triangulo a b c) :
    distancia (0, 0) (calcular_vertice a b c) = a ∧
    distancia (c, 0) (calcular_vertice a b c) = b ∧
    0 ≤ (calcular_vertice a b c).2 := by
  obtain ⟨ha, hb, hc⟩ := pos_of_verificar h
  have hlt1 : arccos_arg a b c < 1 := arccos_arg_lt_one h
  have hgt1 : -1 < arccos_arg a b c := neg_one_lt_arccos_arg h
  set g := arccos_arg a b c with hg
  have hsq_nonneg : 0 ≤ 1 - g ^ 2 := by nlinarith
  have hroot : Real.sqrt (1 - g ^ 2) ^ 2 = 1 - g ^ 2 := Real.sq_sqrt hsq_nonneg
  have hv : calcular_vertice a b c = (a * g, a * Real.sqrt (1 - g ^ 2)) :=
    calcular_vertice_eq h
  have hprod : 2 * a * c * g = a ^ 2 + c ^ 2 - b ^ 2 := by
    rw [hg, arccos_arg]
    field_simp
  refine ⟨?_, ?_, ?_⟩
  · rw [hv, distancia]
    have : (a * g - 0) ^ 2 + (a * Real.sqrt (1 - g ^ 2) - 0) ^ 2 = a ^ 2 := by
      rw [sub_zero, sub_zero, mul_pow, mul_pow, hroot]
      ring
    rw [this]
    exact Real.sqrt_sq ha.le
  · rw [hv, distancia]
    have : (a * g - c) ^ 2 + (a * Real.sqrt (1 - g ^ 2) - 0) ^ 2 = b ^ 2 := by
      rw [sub_zero, mul_pow, hroot]
      nlinarith [hprod]
    rw [this]
    exact Real.sqrt_sq hb.le
  · rw [hv]
    exact mul_nonneg ha.le (Real.sqrt_nonneg _)

/-- Witness for C4 at `(3, 4, 5)`. -/
theorem C4_witness :
    verificar_triangulo (3 : ℝ) 4 5 ∧
    (distancia (0, 0) (calcular_vertice 3 4 5) = 3 ∧
     distancia (5, 0) (calcular_vertice 3 4 5) = 4 ∧
     0 ≤ (calcular_vertice (3 : ℝ) 4 5).2) := by
  have hv : verificar_triangulo (3 : ℝ) 4 5 := by
    refine ⟨by norm_num, by norm_num, by norm_num⟩
  exact ⟨hv, C4_vertice_realiza_lados 3 4 5 hv⟩

/-- C10: for a feasible triple the apex `y`-coordinate is strictly
positive, since the arccosine argument lies in the open interval
`(-1, 1)`. -/
theorem C10_vertice_y_pos (a b c : ℝ) (h : verificar_triangulo a b c) :
    0 < (calcular_vertice a b c).2 := by
  obtain ⟨ha, hb, hc⟩ := pos_of_verificar h
  have hlt1 : arccos_arg a b c < 1 := arccos_arg_lt_one h
  have hgt1 : -1 < arccos_arg a b c := neg_one_lt_arccos_arg h
  have hv := calcular_vertice_eq h
  rw [hv]
  have hsq_pos : 0 < 1 - arccos_arg a b c ^ 2 := by nlinarith
  exact mul_pos ha (Real.sqrt_pos.mpr hsq_pos)

/-- C5 counterexample: at the degenerate triple `(1, 2, 3)` the validator
rejects and exactly one inequality is violated, yet the largest side `3`
does not strictly exceed `1 + 2`, refuting the claim as stated. -/
theorem C5_counterexample :
    (0 : ℝ) < 1 ∧ (0 : ℝ) < 2 ∧ (0 : ℝ) < 3 ∧
    ¬ verificar_triangulo (1 : ℝ) 2 3 ∧
    ¬ (exatamente_uma_violada 1 2 3 ∧ maior_excede_estritamente 1 2 3) := by
  refine ⟨by norm_num, by norm_num, by norm_num, ?_, ?_⟩
  · rintro ⟨h1, -, -⟩
    norm_num at h1
  · rintro ⟨-, hstrict, -, -⟩
    have h3 : (3 : ℝ) > 1 + 2 := (hstrict (by norm_num)).2
    norm_num at h3

/-- C5 amended: for positive lengths rejected by the validator, exactly
one inequality is violated, and the violated one isolates the largest
side, which is greater than or equal to the sum of the other two
(equality occurring exactly in the degenerate case). -/
theorem C5_amended (a b c : ℝ) (ha : 0 < a) (hb : 0 < b) (hc : 0 < c)
    (h : ¬ verificar_triangulo a b c) :
    exatamente_uma_violada a b c ∧
    (¬(a + b > c) → c = max a (max b c) ∧ c ≥ a + b) ∧
    (¬(a + c > b) → b = max a (max b c) ∧ b ≥ a + c) ∧
    (¬(b + c > a) → a = max a (max b c) ∧ a ≥ b + c) := by
  rw [verificar_triangulo, not_and_or, not_and_or] at h
  rcases h with h1 | h2 | h3
  · push_neg at h1
    have hac : a + c > b := by linarith
    have hbc : b + c > a := by linarith
    refine ⟨Or.inl ⟨by push_neg; exact h1, hac, hbc⟩, ?_, ?_, ?_⟩
    · intro _
      have hm1 : max b c = c := max_eq_right (by linarith)
      rw [hm1]
      exact ⟨(max_eq_right (by linarith)).symm, h1⟩
    · intro hcon
      exact absurd hac hcon
    · intro hcon
      exact absurd hbc hcon
  · push_neg at h2
    have hab : a + b > c := by linarith
    have hbc : b + c > a := by linarith
    refine ⟨Or.inr (Or.inl ⟨hab, by push_neg; exact h2, hbc⟩), ?_, ?_, ?_⟩
    · intro hcon
      exact absurd hab hcon
    · intro _
      have hm1 : max b c = b := max_eq_left (by linarith)
      rw [hm1]
      exact ⟨(max_eq_right (by linarith)).symm, h2⟩
    · intro hcon
      exact absurd hbc hcon
  · push_neg at h3
    have hab : a + b > c := by linarith
    have hac : a + c > b := by linarith
    refine ⟨Or.inr (Or.inr ⟨hab, hac, by push_neg; exact h3⟩), ?_, ?_, ?_⟩
    · intro hcon
      exact absurd hab hcon
    · intro hcon
      exact absurd hac hcon
    · intro _
      have hm1 : max b c ≤ a := max_le (by linarith) (by linarith)
      exact ⟨(max_eq_left hm1).symm, h3⟩

/-- Witness for the amended C5 at the infeasible triple `(1, 1, 10)`. -/
theorem C5_witness :
    (0 : ℝ) < 1 ∧ (0 : ℝ) < 1 ∧ (0 : ℝ) < 10 ∧
    ¬ verificar_triangulo (1 : ℝ) 1 10 ∧
    (exatamente_uma_violada 1 1 10 ∧
     (¬((1 : ℝ) + 1 > 10) → (10 : ℝ) = max 1 (max 1 10) ∧ (10 : ℝ) ≥ 1 + 1) ∧
     (¬((1 : ℝ) + 10 > 1) → (1 : ℝ) = max 1 (max 1 10) ∧ (1 : ℝ) ≥ 1 + 10) ∧
     (¬((1 : ℝ) + 10 > 1) → (1 : ℝ) = max 1 (max 1 10) ∧ (1 : ℝ) ≥ 1 + 10)) := by
  have hnv : ¬ verificar_triangulo (1 : ℝ) 1 10 := by
    rintro ⟨h1, -, -⟩
    norm_num at h1
  exact ⟨by norm_num, by norm_num, by norm_num, hnv,
    C5_amended 1 1 10 (by norm_num) (by norm_num) (by norm_num) hnv⟩

/-- C6: an unparsable value or a non-positive value ends the run of `main`
with the corresponding error outcome, and rendering happens only when all
three values parsed and are strictly positive. -/
theorem C6_main_guards (ra rb rc : Option ℝ) :
    ((ra = none ∨ rb = none ∨ rc = none) →
      main_model ra rb rc = MainOutcome.erroEntrada) ∧
    (∀ a b c : ℝ, ra = some a → rb = some b → rc = some c →
      (a ≤ 0 ∨ b ≤ 0 ∨ c ≤ 0) →
      main_model ra rb rc = MainOutcome.erroNaoPositivo) ∧
    (∀ a b c : ℝ, main_model ra rb rc = MainOutcome.renderizado a b c →
      ra = some a ∧ rb = some b ∧ rc = some c ∧ 0 < a ∧ 0 < b ∧ 0 < c) := by
  refine ⟨?_, ?_, ?_⟩
  · rintro (rfl | rfl | rfl)
    · cases rb <;> cases rc <;> rfl
    · cases ra <;> cases rc <;> rfl
    · cases ra <;> cases rb <;> rfl
  · rintro a b c rfl rfl rfl hneg
    simp only [main_model, if_pos hneg]
  · intro a b c hmain
    cases ra with
    | none => exact absurd hmain (by simp [main_model])
    | some x =>
      cases rb with
      | none => exact absurd hmain (by simp [main_model])
      | some y =>
        cases rc with
        | none => exact absurd hmain (by simp [main_model])
        | some z =>
          by_cases hneg : x ≤ 0 ∨ y ≤ 0 ∨ z ≤ 0
          · rw [main_model, if_pos hneg] at hmain
            exact absurd hmain (by simp)
          · rw [main_model, if_neg hneg] at hmain
            push_neg at hneg
            obtain ⟨hx, hy, hz⟩ := hneg
            obtain ⟨rfl, rfl, rfl⟩ :=
              (MainOutcome.renderizado.injEq x y z a b c).mp hmain
            exact ⟨rfl, rfl, rfl, hx, hy, hz⟩

/-- Witness for C6: a failed parse yields the input error, a negative
length yields the positivity error. -/
theorem C6_witness :
    main_model (none : Option ℝ) (some 1) (some 2) = MainOutcome.erroEntrada ∧
    main_model (some (-2 : ℝ)) (some 1) (some 2) =
      MainOutcome.erroNaoPositivo :=
  ⟨(C6_main_guards none (some 1) (some 2)).1 (Or.inl rfl),
   (C6_main_guards (some (-2 : ℝ)) (some 1) (some 2)).2.1 (-2) 1 2 rfl rfl rfl
     (Or.inl (by norm_num))⟩

/-- Witness for C10 at `(3, 4, 5)`. -/
theorem C10_witness :
    verificar_triangulo (3 : ℝ) 4 5 ∧ 0 < (calcular_vertice (3 : ℝ) 4 5).2 := by
  have hv : verificar_triangulo (3 : ℝ) 4 5 := by
    refine ⟨by norm_num, by norm_num, by norm_num⟩
  exact ⟨hv, C10_vertice_y_pos 3 4 5 hv⟩

/-- C7: for an infeasible positive triple, the report computed by `main`
carries the sum of the two smallest sides and the largest side, its chosen
label denotes a side equal to `max a (max b c)`, and the two remaining
labels in the violated-condition line are the labels of the other two
sides (the three labels are pairwise distinct). -/
theorem C7_relatorio_correto (a b c : ℝ)
    (ha : 0 < a) (hb : 0 < b) (hc : 0 < c)
    (h : ¬ verificar_triangulo a b c) :
    (relatorio_final a b c).soma_menores = a + b + c - max a (max b c) ∧
    (relatorio_final a b c).maior = max a (max b c) ∧
    valor_lado a b c (relatorio_final a b c).label_maior = max a (max b c) ∧
    (relatorio_final a b c).label_maior ≠ (relatorio_final a b c).menores.1 ∧
    (relatorio_final a b c).label_maior ≠ (relatorio_final a b c).menores.2 ∧
    (relatorio_final a b c).menores.1 ≠ (relatorio_final a b c).menores.2 := by
  rw [verificar_triangulo, not_and_or, not_and_or] at h
  rcases h with h1 | h2 | h3
  · -- the violated inequality is a + b > c, so c is the strict maximum
    push_neg at h1
    have hac : a < c := by linarith
    have hbc : b < c := by linarith
    have hmax : max a (max b c) = c := by
      rw [max_eq_right hbc.le, max_eq_right hac.le]
    rcases le_or_lt a b with hab | hab
    · have hs : sort3 a b c = (a, b, c) := by
        simp [sort3, sort2, hab, hbc.le]
      have hr : relatorio_final a b c =
          ⟨a + b, c, Lado.c, (Lado.a, Lado.b)⟩ := by
        simp [relatorio_final, hs, hac.ne, hbc.ne]
      rw [hr]
      refine ⟨by rw [hmax]; show a + b = a + b + c - c; ring, hmax.symm,
        by simp [valor_lado, hmax], ?_, ?_, ?_⟩
      · show Lado.c ≠ Lado.a; decide
      · show Lado.c ≠ Lado.b; decide
      · show Lado.a ≠ Lado.b; decide
    · have hs : sort3 a b c = (b, a, c) := by
        simp [sort3, sort2, not_le.mpr hab, hab.le, hac.le]
      have hr : relatorio_final a b c =
          ⟨b + a, c, Lado.c, (Lado.b, Lado.a)⟩ := by
        simp [relatorio_final, hs, hac.ne, hbc.ne, hab.ne']
      rw [hr]
      refine ⟨by rw [hmax]; show b + a = a + b + c - c; ring, hmax.symm,
        by simp [valor_lado, hmax], ?_, ?_, ?_⟩
      · show Lado.c ≠ Lado.b; decide
      · show Lado.c ≠ Lado.a; decide
      · show Lado.b ≠ Lado.a; decide
  · -- the violated inequality is a + c > b, so b is the strict maximum
    push_neg at h2
    have hab : a < b := by linarith
    have hcb : c < b := by linarith
    have hmax : max a (max b c) = b := by
      rw [max_eq_left hcb.le, max_eq_right hab.le]
    rcases le_or_lt a c with hac | hac
    · have hs : sort3 a b c = (a, c, b) := by
        simp [sort3, sort2, hab.le, not_le.mpr hcb, hac]
      have hr : relatorio_final a b c =
          ⟨a + c, b, Lado.b, (Lado.a, Lado.c)⟩ := by
        simp [relatorio_final, hs, hab.ne]
      rw [hr]
      refine ⟨by rw [hmax]; show a + c = a + b + c - b; ring, hmax.symm,
        by simp [valor_lado, hmax], ?_, ?_, ?_⟩
      · show Lado.b ≠ Lado.a; decide
      · show Lado.b ≠ Lado.c; decide
      · show Lado.a ≠ Lado.c; decide
    · have hs : sort3 a b c = (c, a, b) := by
        simp [sort3, sort2, hab.le, not_le.mpr hcb, not_le.mpr hac]
      have hr : relatorio_final a b c =
          ⟨c + a, b, Lado.b, (Lado.c, Lado.a)⟩ := by
        simp [relatorio_final, hs, hab.ne, hac.ne']
      rw [hr]
      refine ⟨by rw [hmax]; show c + a = a + b + c - b; ring, hmax.symm,
        by simp [valor_lado, hmax], ?_, ?_, ?_⟩
      · show Lado.b ≠ Lado.c; decide
      · show Lado.b ≠ Lado.a; decide
      · show Lado.c ≠ Lado.a; decide
  · -- the violated inequality is b + c > a, so a is the strict maximum
    push_neg at h3
    have hba : b < a := by linarith
    have hca : c < a := by linarith
    have hmax : max a (max b c) = a :=
      max_eq_left (max_le hba.le hca.le)
    rcases le_or_lt b c with hbc | hbc
    · have hs : sort3 a b c = (b, c, a) := by
        simp [sort3, sort2, not_le.mpr hba, not_le.mpr hca, hbc]
      have hr : relatorio_final a b c =
          ⟨b + c, a, Lado.a, (Lado.b, Lado.c)⟩ := by
        simp [relatorio_final, hs]
      rw [hr]
      refine ⟨by rw [hmax]; show b + c = a + b + c - a; ring, hmax.symm,
        by simp [valor_lado, hmax], ?_, ?_, ?_⟩
      · show Lado.a ≠ Lado.b; decide
      · show Lado.a ≠ Lado.c; decide
      · show Lado.b ≠ Lado.c; decide
    · have hs : sort3 a b c = (c, b, a) := by
        simp [sort3, sort2, not_le.mpr hba, not_le.mpr hca, not_le.mpr hbc]
      have hr : relatorio_final a b c =
          ⟨c + b, a, Lado.a, (Lado.c, Lado.b)⟩ := by
        simp [relatorio_final, hs, hbc.ne']
      rw [hr]
      refine ⟨by rw [hmax]; show c + b = a + b + c - a; ring, hmax.symm,
        by simp [valor_lado, hmax], ?_, ?_, ?_⟩
      · show Lado.a ≠ Lado.c; decide
      · show Lado.a ≠ Lado.b; decide
      · show Lado.c ≠ Lado.b; decide

/-- Witness for C7 at the infeasible triple `(2, 2, 10)`, which has a tie
between the two smaller sides. -/
theorem C7_witness :
    (0 : ℝ) < 2 ∧ (0 : ℝ) < 2 ∧ (0 : ℝ) < 10 ∧
    ¬ verificar_triangulo (2 : ℝ) 2 10 ∧
    ((relatorio_final (2 : ℝ) 2 10).soma_menores =
        2 + 2 + 10 - max 2 (max 2 10) ∧
     (relatorio_final (2 : ℝ) 2 10).maior = max 2 (max 2 10) ∧
     valor_lado (2 : ℝ) 2 10 (relatorio_final (2 : ℝ) 2 10).label_maior =
        max 2 (max 2 10) ∧
     (relatorio_final (2 : ℝ) 2 10).label_maior ≠
        (relatorio_final (2 : ℝ) 2 10).menores.1 ∧
     (relatorio_final (2 : ℝ) 2 10).label_maior ≠
        (relatorio_final (2 : ℝ) 2 10).menores.2 ∧
     (relatorio_final (2 : ℝ) 2 10).menores.1 ≠
        (relatorio_final (2 : ℝ) 2 10).menores.2) := by
  have hnv : ¬ verificar_triangulo (2 : ℝ) 2 10 := by
    rintro ⟨h1, -, -⟩
    norm_num at h1
  exact ⟨by norm_num, by norm_num, by norm_num, hnv,
    C7_relatorio_correto 2 2 10 (by norm_num) (by norm_num) (by norm_num) hnv⟩

end Teste
